import Mathlib

/-!
Shallow embedding of the fedora-review Java guidelines plugin
(`src/fedora-review/java_guidelines.py`).

Each check of the plugin is a pure function over two read-only views
supplied by the fedora-review host: a spec view (build-requires, requires,
declared subpackages, spec text lines, expanded tags) and an rpms view
(file lists per built subpackage).  A check records a verdict
(PASS / FAIL / PENDING / NOT-APPLICABLE) plus an optional message, which we
model as the return value `Verdict × Option String` of the check function.

The host primitives (`Spec.find_re`, `Rpms.find`, `Rpms.find_all`) are
modelled per the repository spec: `find_re` applies Python `re.search` to
each spec line; `find`/`find_all` run an fnmatch-style glob over a
subpackage's file list ('*' matches any character sequence, other
characters are literal, the whole path must match).  The concrete regexes
of the plugin fall into two families which we implement directly with
Python `re.search` semantics:
  * a plain literal (substring search), and
  * `[^c]*LITERAL` (an unanchored search of a negated-character-star
    followed by a literal).
-/

/-- Check verdicts of the fedora-review framework: `set_passed` stores one of
`PASS`, `FAIL`, `PENDING` or `NA` (not applicable); a plain boolean argument
means `PASS` for `True` and `FAIL` for `False`. -/
inductive Verdict where
  | PASS
  | FAIL
  | PENDING
  | NA
deriving DecidableEq

/-- `set_passed` applied to a Python boolean. -/
def setPassedBool (b : Bool) : Verdict :=
  if b then Verdict.PASS else Verdict.FAIL

/-- Python `\s` on ASCII input: the whitespace characters recognised by
`re` patterns such as `^\s*$`. -/
def isPySpace (c : Char) : Bool :=
  c = ' ' || c = '\t' || c = '\n' || c = '\r' || c = '\x0b' || c = '\x0c'

/-- `needle.isPrefixOf hay` on raw character lists: one attempted literal
match at a fixed position. -/
def isPrefixOfChars : List Char → List Char → Bool
  | [], _ => true
  | _ :: _, [] => false
  | a :: as, b :: bs => a = b && isPrefixOfChars as bs

/-- `re.search` of a plain literal: the literal matches at some position of
the haystack. -/
def occursIn (needle : List Char) : List Char → Bool
  | [] => isPrefixOfChars needle []
  | c :: t => isPrefixOfChars needle (c :: t) || occursIn needle t

/-- Python `needle in hay` on strings / `re.search` of a literal pattern. -/
def strContains (hay needle : String) : Bool :=
  occursIn needle.toList hay.toList

/-- Python `s.endswith(suf)`. -/
def strEndsWith (s suf : String) : Bool :=
  isPrefixOfChars suf.toList.reverse s.toList.reverse

/-- Python `s.lower()` (ASCII case folding, as used on RPM arch tags). -/
def strToLower (s : String) : String :=
  String.mk (s.toList.map Char.toLower)

/-- One attempted match of the pattern `[^c]*LIT` at a fixed position:
either the literal matches right here (the star consumes nothing), or the
current character is not `c` and the star consumes it. -/
def negStarLitMatchAt (c : Char) (lit : List Char) : List Char → Bool
  | [] => isPrefixOfChars lit []
  | d :: t => isPrefixOfChars lit (d :: t) || (d != c && negStarLitMatchAt c lit t)

/-- `re.search` of the pattern `[^c]*LIT`: an attempted match at every
position of the haystack. -/
def negStarLitSearch (c : Char) (lit : List Char) : List Char → Bool
  | [] => negStarLitMatchAt c lit []
  | d :: t => negStarLitMatchAt c lit (d :: t) || negStarLitSearch c lit t

/-- All suffixes of a character list, longest first. -/
def charSuffixes : List Char → List (List Char)
  | [] => [[]]
  | c :: s => (c :: s) :: charSuffixes s

/-- fnmatch-style glob match against a whole path: `*` matches any
character sequence (slashes included), every other pattern character is
literal.  The patterns of this plugin use no other metacharacter. -/
def globMatch : List Char → List Char → Bool
  | [], s => s.isEmpty
  | '*' :: p, s => (charSuffixes s).any (fun t => globMatch p t)
  | a :: p, s =>
    match s with
    | [] => false
    | c :: t => a = c && globMatch p t

/-- A file path matches a glob pattern. -/
def globMatchStr (pat file : String) : Bool :=
  globMatch pat.toList file.toList

/-- The read-only spec view supplied by the fedora-review host
(`self.spec`): name, version, declared subpackage names, build-requires,
raw spec text lines (searched by `find_re`), computed requires
(`get_requires`, optionally restricted to one subpackage), and expanded
tag values (here only the `arch` tag per subpackage is consumed). -/
structure SpecView where
  name : String
  version : String
  packages : List String
  build_requires : List String
  lines : List String
  get_requires : Option String → List String
  expand_arch : String → Option String

/-- The read-only rpms view supplied by the host (`self.rpms`): the file
list of every built subpackage. -/
structure RpmsView where
  rpmFiles : List (String × List String)

/-- Files of one subpackage. -/
def RpmsView.filesOf (r : RpmsView) (pkg : String) : List String :=
  match r.rpmFiles.find? (fun p => p.1 == pkg) with
  | some p => p.2
  | none => []

/-- `rpms.find(pattern, pkg)`: some file of the subpackage matches. -/
def RpmsView.findIn (r : RpmsView) (pat pkg : String) : Bool :=
  (r.filesOf pkg).any (fun f => globMatchStr pat f)

/-- `rpms.find(pattern)` without a package: some file of some built
subpackage matches. -/
def RpmsView.findAny (r : RpmsView) (pat : String) : Bool :=
  r.rpmFiles.any (fun p => p.2.any (fun f => globMatchStr pat f))

/-- `rpms.find_all(pattern, pkg)`: all matching files of the subpackage
(the caller only tests the result for emptiness). -/
def RpmsView.find_all (r : RpmsView) (pat pkg : String) : List String :=
  (r.filesOf pkg).filter (fun f => globMatchStr pat f)

/-- `JavaCheckBase._is_maven_pkg`: some build-requirement contains the
marker `maven-local`. -/
def isMavenPkg (s : SpecView) : Bool :=
  s.build_requires.any (fun br => strContains br "maven-local")

/-- One spec line matches the regex `([^#]*%mvn_build)|([^#]*%mvn_install)`
under `re.search`. -/
def xmvnLineMatch (l : String) : Bool :=
  negStarLitSearch '#' "%mvn_build".toList l.toList ||
    negStarLitSearch '#' "%mvn_install".toList l.toList

/-- `JavaCheckBase._is_xmvn_pkg`: `spec.find_re` of the XMvn build/install
macro pattern, i.e. some spec line matches. -/
def isXmvnPkg (s : SpecView) : Bool :=
  s.lines.any xmvnLineMatch

/-- `JavaCheckBase._get_javadoc_sub`: first declared subpackage whose name
ends in `-javadoc`, if any. -/
def getJavadocSub (s : SpecView) : Option String :=
  s.packages.find? (fun p => strEndsWith p "-javadoc")

/-- The `^\s*$` blank-line test of `_search_previous_line`. -/
def emptyLine (l : String) : Bool :=
  l.toList.all isPySpace

/-- Loop body of `JavaCheckBase._search_previous_line`, walking the
reversed section with the two flags `found_trigger` and `found_pivot`.
Result: the function's return value (`none` models Python `None`) paired
with the verdict recorded by `set_passed`, if any. -/
def searchPreviousLineAux (trigger pivot judge : String → Bool) :
    List String → Bool → Bool → Option Bool × Option Verdict
  | [], _, _ => (none, none)
  | line :: rest, foundTrigger, foundPivot =>
    let ft := foundTrigger || trigger line
    if ft && pivot line then
      searchPreviousLineAux trigger pivot judge rest ft true
    else if foundPivot && !(emptyLine line) then
      if judge line then (some true, none) else (some false, some Verdict.FAIL)
    else
      searchPreviousLineAux trigger pivot judge rest ft foundPivot

/-- `JavaCheckBase._search_previous_line`: scan the section from its last
line toward its first. -/
def searchPreviousLine (sec : List String) (trigger pivot judge : String → Bool) :
    Option Bool × Option Verdict :=
  searchPreviousLineAux trigger pivot judge sec.reverse false false

/-- The trigger pattern of the docstring example: `re.search` for the
literal `-Dmaven.test.skip` (its dots taken literally, as in every input
considered here). -/
def triggerTestSkip (l : String) : Bool :=
  strContains l "-Dmaven.test.skip"

/-- The pivot pattern of the docstring example: `re.search` for
`mvn-rpmbuild`. -/
def pivotMvnRpmbuild (l : String) : Bool :=
  strContains l "mvn-rpmbuild"

/-- The judge pattern of the docstring example: `re.search` for `^#`,
i.e. the line starts with a comment character. -/
def judgeComment (l : String) : Bool :=
  isPrefixOfChars "#".toList l.toList

/-- `JAVAPACKAGES_BR`, the tokens looked for among build-requires. -/
def JAVAPACKAGES_BR : List String :=
  ["javapackages-tools", "jpackage-utils", "javapackages-local", "gradle-local"]

/-- `JAVAPACKAGES_R`, the tokens looked for among requires. -/
def JAVAPACKAGES_R : List String :=
  ["javapackages-tools", "jpackage-utils"]

/-- `br_found` of `CheckJPackageRequires.run_on_applicable`: some
`JAVAPACKAGES_BR` token is a substring of some build-requirement. -/
def brFound (s : SpecView) : Bool :=
  JAVAPACKAGES_BR.any (fun x => s.build_requires.any (fun br => strContains br x))

/-- `r_found` of `CheckJPackageRequires.run_on_applicable`: some
`JAVAPACKAGES_R` token is a substring of some computed requirement. -/
def rFound (s : SpecView) : Bool :=
  JAVAPACKAGES_R.any (fun x => (s.get_requires none).any (fun br => strContains br x))

/-- `CheckJPackageRequires.run_on_applicable`. -/
def runJPackageRequires (s : SpecView) : Verdict × Option String :=
  if isMavenPkg s || isXmvnPkg s then
    (setPassedBool (!(brFound s || rFound s)),
      some "Maven packages do not need to (Build)Require jpackage-utils. It is pulled in by maven-local")
  else
    (setPassedBool (brFound s && rFound s), none)

/-- `CheckJavadocJPackageRequires.run_on_applicable`.  Note that the token
test `x in reqs` is Python list membership, i.e. exact string equality of
a requires entry with the token. -/
def runJavadocJPackageRequires (s : SpecView) : Verdict × Option String :=
  let pkgs := s.packages.filter (fun p => strEndsWith p "-javadoc")
  match pkgs with
  | [] => (Verdict.NA, none)
  | [p] =>
    let reqs := s.get_requires (some p)
    let ok := !(JAVAPACKAGES_R.any (fun x => reqs.contains x))
    (if ok then Verdict.PASS else Verdict.FAIL,
      if ok then none
      else some "javapackages-tools requires are automatically generated by the buildsystem")
  | _ => (Verdict.PENDING, some "More than one javadoc package")

/-- `CheckJavadoc.run_on_applicable`. -/
def runJavadoc (s : SpecView) (r : RpmsView) : Verdict × Option String :=
  match getJavadocSub s with
  | none =>
    (Verdict.FAIL,
      some "No javadoc subpackage present. Note: Javadocs are optional for Fedora versions >= 21")
  | some pkg =>
    if r.findIn "*.html" pkg then (Verdict.PASS, none)
    else (Verdict.FAIL, some ("No javadoc html files found in " ++ pkg))

/-- The versioned javadoc path pattern of `CheckJavadocdirName`. -/
def nameVerPattern (s : SpecView) : String :=
  "/usr/share/javadoc/" ++ s.name ++ "-" ++ s.version ++ "/*"

/-- The unversioned javadoc path pattern of `CheckJavadocdirName`. -/
def namePattern (s : SpecView) : String :=
  "/usr/share/javadoc/" ++ s.name ++ "/*"

/-- `CheckJavadocdirName.run_on_applicable`. -/
def runJavadocdirName (s : SpecView) (r : RpmsView) : Verdict × Option String :=
  match getJavadocSub s with
  | none => (Verdict.FAIL, some "No javadoc subpackage present")
  | some pkg =>
    if r.find_all (nameVerPattern s) pkg ≠ [] then
      (Verdict.FAIL, some ("Found deprecated versioned javadoc paths " ++ nameVerPattern s))
    else if r.find_all (namePattern s) pkg = [] then
      (Verdict.FAIL, some ("No /usr/share/javadoc/" ++ s.name ++ " found"))
    else
      (Verdict.PASS, none)

/-- One spec line matches the regex `[^#]*%add_maven_depmap` under
`re.search`. -/
def addMavenDepmapLine (l : String) : Bool :=
  negStarLitSearch '#' "%add_maven_depmap".toList l.toList

/-- `CheckAddMavenDepmap.run`. -/
def runAddMavenDepmap (s : SpecView) (r : RpmsView) : Verdict × Option String :=
  if !(r.findAny "*.pom") then (Verdict.NA, none)
  else if isXmvnPkg s then (Verdict.PASS, none)
  else if !(s.lines.any addMavenDepmapLine) then
    (Verdict.FAIL,
      some "Old style Maven package found, no add_maven_depmap calls found but POM files present")
  else
    (Verdict.PENDING,
      some "Some add_maven_depmap calls found. Please check if they are correct or update to latest guidelines")

/-- One spec line matches the regex `[^#]*mvn-rpmbuild` under `re.search`. -/
def mvnRpmbuildLine (l : String) : Bool :=
  negStarLitSearch '#' "mvn-rpmbuild".toList l.toList

/-- `CheckMvnRpmbuild.run`. -/
def runMvnRpmbuild (s : SpecView) : Verdict × Option String :=
  if s.lines.any mvnRpmbuildLine then
    (Verdict.FAIL,
      some "Convert the package to use %mvn_build instead of deprecated mvn-rpmbuild")
  else
    (Verdict.NA, none)

/-- `CheckNoArch.run_on_applicable`, one subpackage at a time: expand the
`arch` tag, lowercase it when present, and compare with `noarch`; Python's
`None != 'noarch'` is true, so a tag that fails to expand is a mismatch. -/
def noArchAux (s : SpecView) : List String → Verdict × Option String
  | [] => (Verdict.PASS, none)
  | pkg :: rest =>
    let arch := (s.expand_arch pkg).map strToLower
    if arch != some "noarch" then
      (Verdict.PENDING, some (pkg ++ " subpackage is not noarch. Please verify manually"))
    else
      noArchAux s rest

/-- `CheckNoArch.run_on_applicable`. -/
def runNoArch (s : SpecView) : Verdict × Option String :=
  noArchAux s s.packages

/-- `CheckNewStyleMaven.run`. -/
def runNewStyleMaven (s : SpecView) : Verdict × Option String :=
  if isMavenPkg s && isXmvnPkg s then (Verdict.PASS, none)
  else if isMavenPkg s then
    (Verdict.FAIL, some "If possible update your package to latest guidelines")
  else (Verdict.NA, none)

/-- Concrete test input: a Maven/XMvn package (`maven-local` build-require,
`%mvn_build` call) with one javadoc subpackage whose requires carry
`javapackages-tools` only with a version constraint appended. -/
def specA : SpecView :=
  ⟨"foo", "1.0", ["foo", "foo-javadoc"], ["maven-local", "javapackages-tools"],
    ["%mvn_build -f"], fun _ => ["javapackages-tools >= 3.4"], fun _ => some "noarch"⟩

/-- Concrete test input: a package with no javadoc subpackage whose only
subpackage has no expandable `arch` tag. -/
def specB : SpecView :=
  ⟨"bar", "2.0", ["bar"], [], ["mvn-rpmbuild -Dmaven.test.skip"], fun _ => [],
    fun _ => none⟩

/-- Concrete test input for the deprecated-build-tool check: the string
`mvn-rpmbuild` occurs only on a comment line of the spec text. -/
def mvnCommentSpec : SpecView :=
  ⟨"baz", "1.0", ["baz"], [], ["# mvn-rpmbuild"], fun _ => [], fun _ => none⟩

/-- Concrete test input: built packages of `specA`, holding one POM file
and one javadoc HTML file under the unversioned javadoc directory. -/
def rpmsA : RpmsView :=
  ⟨[("foo", ["/usr/share/maven-poms/JPP-foo.pom"]),
    ("foo-javadoc", ["/usr/share/javadoc/foo/index.html"])]⟩

/-- Concrete test input: built javadoc subpackage shipping its HTML under
the deprecated versioned javadoc directory. -/
def rpmsVersioned : RpmsView :=
  ⟨[("foo-javadoc", ["/usr/share/javadoc/foo-1.0/index.html"])]⟩

section Lemmas

/-- A successful match of `[^c]*LIT` at a position yields an occurrence of
the literal at that position or later: the negated star is vacuous for
`re.search`. -/
lemma negStarLitMatchAt_imp_occursIn (c : Char) (lit : List Char) :
    ∀ s, negStarLitMatchAt c lit s = true → occursIn lit s = true := by
  intro s
  induction s with
  | nil => simp [negStarLitMatchAt, occursIn]
  | cons d t ih =>
    simp only [negStarLitMatchAt, occursIn, Bool.or_eq_true, Bool.and_eq_true]
    rintro (h | ⟨-, h⟩)
    · exact Or.inl h
    · exact Or.inr (ih h)

/-- Conversely, any literal occurrence gives a `[^c]*LIT` match starting at
the occurrence (the star consuming nothing). -/
lemma occursIn_imp_negStarLitSearch (c : Char) (lit : List Char) :
    ∀ s, occursIn lit s = true → negStarLitSearch c lit s = true := by
  intro s
  induction s with
  | nil => simp [negStarLitSearch, negStarLitMatchAt, occursIn]
  | cons d t ih =>
    simp only [negStarLitSearch, negStarLitMatchAt, occursIn, Bool.or_eq_true]
    rintro (h | h)
    · exact Or.inl (Or.inl h)
    · exact Or.inr (ih h)

/-- `re.search` of `[^c]*LIT` succeeds exactly when the literal occurs
anywhere in the haystack: the comment-excluding prefix has no effect. -/
lemma negStarLitSearch_iff_occursIn (c : Char) (lit : List Char) (s : List Char) :
    negStarLitSearch c lit s = true ↔ occursIn lit s = true := by
  constructor
  · induction s with
    | nil => simp [negStarLitSearch, negStarLitMatchAt, occursIn]
    | cons d t ih =>
      simp only [negStarLitSearch, Bool.or_eq_true]
      rintro (h | h)
      · exact negStarLitMatchAt_imp_occursIn c lit (d :: t) h
      · have := ih h
        simp [occursIn, this]
  · exact occursIn_imp_negStarLitSearch c lit s

/-- When no line of the walked list matches the trigger, the backward
scanner finishes its loop and returns Python `None`, recording no verdict. -/
lemma searchPreviousLineAux_no_trigger (trigger pivot judge : String → Bool) :
    ∀ ls, (∀ l ∈ ls, trigger l = false) →
      searchPreviousLineAux trigger pivot judge ls false false = (none, none) := by
  intro ls
  induction ls with
  | nil => intro _; rfl
  | cons l t ih =>
    intro h
    have hl : trigger l = false := h l (List.mem_cons_self l t)
    have ht : ∀ x ∈ t, trigger x = false := fun x hx => h x (List.mem_cons_of_mem l hx)
    simp only [searchPreviousLineAux, hl, Bool.or_false, Bool.false_and,
      Bool.false_eq_true, if_false]
    exact ih ht

/-- Token detection by Python list membership, in exists form. -/
lemma any_contains_iff (tokens reqs : List String) :
    (tokens.any fun x => reqs.contains x) = true ↔ ∃ x ∈ tokens, x ∈ reqs := by
  simp [List.any_eq_true]

/-- `brFound` in exists form. -/
lemma brFound_iff (s : SpecView) :
    brFound s = true ↔
      ∃ x ∈ JAVAPACKAGES_BR, ∃ br ∈ s.build_requires, strContains br x = true := by
  simp [brFound, List.any_eq_true]

/-- `rFound` in exists form. -/
lemma rFound_iff (s : SpecView) :
    rFound s = true ↔
      ∃ x ∈ JAVAPACKAGES_R, ∃ rq ∈ s.get_requires none, strContains rq x = true := by
  simp [rFound, List.any_eq_true]

/-- `_is_maven_pkg` in exists form. -/
lemma isMavenPkg_iff (s : SpecView) :
    isMavenPkg s = true ↔ ∃ br ∈ s.build_requires, strContains br "maven-local" = true := by
  simp [isMavenPkg, List.any_eq_true]

/-- `_is_xmvn_pkg` in exists form. -/
lemma isXmvnPkg_iff (s : SpecView) :
    isXmvnPkg s = true ↔ ∃ l ∈ s.lines, xmvnLineMatch l = true := by
  simp [isXmvnPkg, List.any_eq_true]

/-- `rpms.find` over all built subpackages, in exists form. -/
lemma findAny_iff (r : RpmsView) (pat : String) :
    r.findAny pat = true ↔ ∃ pr ∈ r.rpmFiles, ∃ f ∈ pr.2, globMatchStr pat f = true := by
  simp [RpmsView.findAny, List.any_eq_true]

/-- `rpms.find` within one subpackage, in exists form. -/
lemma findIn_iff (r : RpmsView) (pat pkg : String) :
    r.findIn pat pkg = true ↔ ∃ f ∈ r.filesOf pkg, globMatchStr pat f = true := by
  simp [RpmsView.findIn, List.any_eq_true]

/-- Emptiness of `rpms.find_all` within one subpackage. -/
lemma find_all_eq_nil_iff (r : RpmsView) (pat pkg : String) :
    r.find_all pat pkg = [] ↔ ∀ f ∈ r.filesOf pkg, globMatchStr pat f = false := by
  simp [RpmsView.find_all, List.filter_eq_nil_iff]

end Lemmas


/-- The noarch loop passes exactly when every walked subpackage's `arch`
tag expands and lowercases to `noarch`. -/
lemma noArchAux_pass_iff (s : SpecView) :
    ∀ l, noArchAux s l = (Verdict.PASS, none) ↔
      ∀ p ∈ l, (s.expand_arch p).map strToLower = some "noarch" := by
  intro l
  induction l with
  | nil => simp [noArchAux]
  | cons p t ih =>
    by_cases h : (s.expand_arch p).map strToLower = some "noarch"
    · have hf : ((s.expand_arch p).map strToLower != some "noarch") = false := by
        simp [h]
      simp only [noArchAux, hf, Bool.false_eq_true, if_false]
      rw [ih]
      constructor
      · intro hall
        intro q hq
        rcases List.mem_cons.mp hq with hqp | hqt
        · exact hqp ▸ h
        · exact hall q hqt
      · intro hall q hq
        exact hall q (List.mem_cons_of_mem p hq)
    · have ht : ((s.expand_arch p).map strToLower != some "noarch") = true := by
        simp [h]
      simp only [noArchAux, ht, if_true]
      constructor
      · intro heq
        exact absurd (congrArg Prod.fst heq) (by simp)
      · intro hall
        exact absurd (hall p (List.mem_cons_self p t)) h

/-- The noarch loop stops at the first subpackage whose lowered `arch` tag
differs from `noarch` (a tag that fails to expand included). -/
lemma noArchAux_find (s : SpecView) :
    ∀ l p, l.find? (fun q => (s.expand_arch q).map strToLower != some "noarch") = some p →
      noArchAux s l =
        (Verdict.PENDING, some (p ++ " subpackage is not noarch. Please verify manually")) := by
  intro l
  induction l with
  | nil => intro p h; simp [List.find?] at h
  | cons q t ih =>
    intro p h
    by_cases hq : (s.expand_arch q).map strToLower = some "noarch"
    · have hf : ((s.expand_arch q).map strToLower != some "noarch") = false := by
        simp [hq]
      simp only [List.find?_cons, hf] at h
      simp only [noArchAux, hf, Bool.false_eq_true, if_false]
      exact ih p h
    · have ht : ((s.expand_arch q).map strToLower != some "noarch") = true := by
        simp [hq]
      simp only [List.find?_cons, ht] at h
      have hqp : q = p := by simpa using h
      subst hqp
      simp only [noArchAux, ht, if_true]

/-- `CheckJavadocJPackageRequires` on a spec with exactly one javadoc
subpackage: FAIL exactly when a `JAVAPACKAGES_R` token is itself an entry
of that subpackage's requires list, PASS otherwise. -/
lemma javadocJPackageRequires_single (s : SpecView) (p : String)
    (h : s.packages.filter (fun q => strEndsWith q "-javadoc") = [p]) :
    ((runJavadocJPackageRequires s).1 = Verdict.FAIL ↔
       ∃ x ∈ JAVAPACKAGES_R, x ∈ s.get_requires (some p)) ∧
    (¬(∃ x ∈ JAVAPACKAGES_R, x ∈ s.get_requires (some p)) →
       runJavadocJPackageRequires s = (Verdict.PASS, none)) := by
  by_cases hany : (JAVAPACKAGES_R.any fun x => (s.get_requires (some p)).contains x) = true
  · have hex : ∃ x ∈ JAVAPACKAGES_R, x ∈ s.get_requires (some p) :=
      (any_contains_iff _ _).mp hany
    constructor
    · simp [runJavadocJPackageRequires, h, hany, hex]
    · intro hne; exact absurd hex hne
  · have hanyf : (JAVAPACKAGES_R.any fun x => (s.get_requires (some p)).contains x) = false :=
      Bool.eq_false_iff.mpr hany
    have hex : ¬∃ x ∈ JAVAPACKAGES_R, x ∈ s.get_requires (some p) := by
      intro hx; exact hany ((any_contains_iff _ _).mpr hx)
    have hall : ∀ x ∈ JAVAPACKAGES_R, x ∉ s.get_requires (some p) := by
      intro x hx hmem; exact hex ⟨x, hx, hmem⟩
    have heval : runJavadocJPackageRequires s = (Verdict.PASS, none) := by
      simp [runJavadocJPackageRequires, h, hanyf]
      exact hall
    constructor
    · constructor
      · intro hfail
        simp [heval] at hfail
      · intro hx; exact absurd hx hex
    · intro _
      exact heval

/-- C1 counterexample: on the docstring example lines without the leading
comment line, `_search_previous_line` finds both trigger and pivot on the
single line, then runs out of lines: it returns Python `None` and records
no verdict — it does not return `False`, and no FAIL is set. -/
theorem searchPreviousLine_missing_comment_counterexample :
    searchPreviousLine ["mvn-rpmbuild -Dmaven.test.skip"]
        triggerTestSkip pivotMvnRpmbuild judgeComment = (none, none) ∧
    searchPreviousLine ["mvn-rpmbuild -Dmaven.test.skip"]
        triggerTestSkip pivotMvnRpmbuild judgeComment ≠ (some false, some Verdict.FAIL) := by
  exact ⟨by decide, by decide⟩

/-- C1 (amended): scanning backward, after trigger and pivot have been
seen the nearest earlier non-blank line decides the result — `True` when
it matches the judge, `False` plus a FAIL verdict when it does not; the
indeterminate `None` is returned when trigger (and hence pivot) never
fires, and also when no earlier non-blank line exists after the pivot, as
on the one-line example. -/
theorem searchPreviousLine_amended :
    searchPreviousLine ["# reason", "mvn-rpmbuild -Dmaven.test.skip"]
        triggerTestSkip pivotMvnRpmbuild judgeComment = (some true, none) ∧
    searchPreviousLine ["mvn-rpmbuild -Dmaven.test.skip"]
        triggerTestSkip pivotMvnRpmbuild judgeComment = (none, none) ∧
    searchPreviousLine ["echo done", "mvn-rpmbuild -Dmaven.test.skip"]
        triggerTestSkip pivotMvnRpmbuild judgeComment = (some false, some Verdict.FAIL) ∧
    ∀ (sec : List String) (trigger pivot judge : String → Bool),
      (∀ l ∈ sec, trigger l = false) →
        searchPreviousLine sec trigger pivot judge = (none, none) := by
  refine ⟨by decide, by decide, by decide, ?_⟩
  intro sec trigger pivot judge h
  unfold searchPreviousLine
  exact searchPreviousLineAux_no_trigger trigger pivot judge sec.reverse
    (fun l hl => h l (List.mem_reverse.mp hl))

/-- C1 witness: the amended theorem applied to a one-line section whose
line matches no trigger. -/
theorem searchPreviousLine_amended_witness :
    searchPreviousLine ["echo hello"] triggerTestSkip pivotMvnRpmbuild judgeComment =
      (none, none) :=
  searchPreviousLine_amended.2.2.2 ["echo hello"] triggerTestSkip pivotMvnRpmbuild
    judgeComment (by decide)

/-- C4: on a spec whose only `mvn-rpmbuild` occurrence sits on a comment
line, the check still records FAIL, because under `re.search` the regex
`[^#]*mvn-rpmbuild` matches exactly the lines containing `mvn-rpmbuild`
anywhere — the comment-excluding prefix is ineffective; in general the
verdict is FAIL precisely when some spec line contains the string. -/
theorem mvnRpmbuild_comment_line_fails :
    runMvnRpmbuild mvnCommentSpec =
      (Verdict.FAIL,
        some "Convert the package to use %mvn_build instead of deprecated mvn-rpmbuild") ∧
    ∀ s : SpecView,
      (runMvnRpmbuild s).1 = Verdict.FAIL ↔
        ∃ l ∈ s.lines, strContains l "mvn-rpmbuild" = true := by
  refine ⟨by decide, ?_⟩
  intro s
  have hline : ∀ l, mvnRpmbuildLine l = true ↔ strContains l "mvn-rpmbuild" = true :=
    fun l => negStarLitSearch_iff_occursIn '#' "mvn-rpmbuild".toList l.toList
  constructor
  · intro hf
    cases hb : s.lines.any mvnRpmbuildLine with
    | false =>
      have hna : runMvnRpmbuild s = (Verdict.NA, none) := by
        simp [runMvnRpmbuild, hb]
      simp [hna] at hf
    | true =>
      obtain ⟨l, hl, hml⟩ := List.any_eq_true.mp hb
      exact ⟨l, hl, (hline l).mp hml⟩
  · rintro ⟨l, hl, hcl⟩
    have hb : s.lines.any mvnRpmbuildLine = true :=
      List.any_eq_true.mpr ⟨l, hl, (hline l).mpr hcl⟩
    simp [runMvnRpmbuild, hb]

/-- C3: when some build-requirement contains the Maven marker
`maven-local` the verdict is PASS if some spec line matches the XMvn
build/install macro pattern and FAIL otherwise; when no build-requirement
contains the marker the verdict is NOT-APPLICABLE, whatever the spec
lines. -/
theorem newStyleMaven_cases (s : SpecView) :
    ((∃ br ∈ s.build_requires, strContains br "maven-local" = true) →
       ((∃ l ∈ s.lines, xmvnLineMatch l = true) →
          runNewStyleMaven s = (Verdict.PASS, none)) ∧
       (¬(∃ l ∈ s.lines, xmvnLineMatch l = true) →
          runNewStyleMaven s =
            (Verdict.FAIL, some "If possible update your package to latest guidelines"))) ∧
    (¬(∃ br ∈ s.build_requires, strContains br "maven-local" = true) →
       runNewStyleMaven s = (Verdict.NA, none)) := by
  constructor
  · intro hm
    have hmb : isMavenPkg s = true := (isMavenPkg_iff s).mpr hm
    constructor
    · intro hx
      have hxb : isXmvnPkg s = true := (isXmvnPkg_iff s).mpr hx
      simp [runNewStyleMaven, hmb, hxb]
    · intro hx
      have hxb : isXmvnPkg s = false := by
        cases hxe : isXmvnPkg s
        · rfl
        · exact absurd ((isXmvnPkg_iff s).mp hxe) hx
      simp [runNewStyleMaven, hmb, hxb]
  · intro hm
    have hmb : isMavenPkg s = false := by
      cases hme : isMavenPkg s
      · rfl
      · exact absurd ((isMavenPkg_iff s).mp hme) hm
    simp [runNewStyleMaven, hmb]

/-- C3 witness: the theorem applied to `specA`, a package with the Maven
marker and an XMvn macro line. -/
theorem newStyleMaven_cases_witness :
    runNewStyleMaven specA = (Verdict.PASS, none) :=
  ((newStyleMaven_cases specA).1
      ⟨"maven-local", by decide, by decide⟩).1
    ⟨"%mvn_build -f", by decide, by decide⟩

/-- C2: for a package identified as Maven or XMvn, the requires check
fails exactly when a `JAVAPACKAGES_BR` token occurs inside some
build-requirement or a `JAVAPACKAGES_R` token occurs inside some computed
requirement, and passes exactly when neither does; for any other package
the polarity is inverted — PASS exactly when both token families are
found, FAIL otherwise. -/
theorem jpackageRequires_polarity (s : SpecView) :
    ((isMavenPkg s = true ∨ isXmvnPkg s = true) →
       (((runJPackageRequires s).1 = Verdict.FAIL ↔
           ((∃ x ∈ JAVAPACKAGES_BR, ∃ br ∈ s.build_requires, strContains br x = true) ∨
            (∃ x ∈ JAVAPACKAGES_R, ∃ rq ∈ s.get_requires none, strContains rq x = true))) ∧
        ((runJPackageRequires s).1 = Verdict.PASS ↔
           ¬((∃ x ∈ JAVAPACKAGES_BR, ∃ br ∈ s.build_requires, strContains br x = true) ∨
             (∃ x ∈ JAVAPACKAGES_R, ∃ rq ∈ s.get_requires none, strContains rq x = true))))) ∧
    ((isMavenPkg s = false ∧ isXmvnPkg s = false) →
       (((runJPackageRequires s).1 = Verdict.PASS ↔
           ((∃ x ∈ JAVAPACKAGES_BR, ∃ br ∈ s.build_requires, strContains br x = true) ∧
            (∃ x ∈ JAVAPACKAGES_R, ∃ rq ∈ s.get_requires none, strContains rq x = true))) ∧
        ((runJPackageRequires s).1 = Verdict.FAIL ↔
           ¬((∃ x ∈ JAVAPACKAGES_BR, ∃ br ∈ s.build_requires, strContains br x = true) ∧
             (∃ x ∈ JAVAPACKAGES_R, ∃ rq ∈ s.get_requires none, strContains rq x = true))))) := by
  rw [← brFound_iff s, ← rFound_iff s]
  constructor
  · intro hm
    have hcond : (isMavenPkg s || isXmvnPkg s) = true := by
      rcases hm with h | h <;> simp [h]
    cases hb : brFound s <;> cases hr : rFound s <;>
      simp [runJPackageRequires, hcond, hb, hr, setPassedBool]
  · intro hm
    have hcond : (isMavenPkg s || isXmvnPkg s) = false := by
      simp [hm.1, hm.2]
    cases hb : brFound s <;> cases hr : rFound s <;>
      simp [runJPackageRequires, hcond, hb, hr, setPassedBool]

/-- C2 witness: the polarity theorem applied to `specA`, a Maven package
declaring `javapackages-tools` among its build-requires. -/
theorem jpackageRequires_polarity_witness :
    (runJPackageRequires specA).1 = Verdict.FAIL :=
  (((jpackageRequires_polarity specA).1 (Or.inl (by decide))).1).mpr
    (Or.inl ⟨"javapackages-tools", by decide, "javapackages-tools", by decide, by decide⟩)

/-- Non-emptiness of `rpms.find_all` within one subpackage, in exists
form. -/
lemma find_all_ne_nil_iff (r : RpmsView) (pat pkg : String) :
    r.find_all pat pkg ≠ [] ↔ ∃ f ∈ r.filesOf pkg, globMatchStr pat f = true := by
  rw [Ne, find_all_eq_nil_iff]
  push_neg
  simp [Bool.ne_false_iff]

/-- The noarch loop never pairs a PASS verdict with a message. -/
lemma noArchAux_fst_pass (s : SpecView) :
    ∀ l, (noArchAux s l).1 = Verdict.PASS → noArchAux s l = (Verdict.PASS, none) := by
  intro l
  induction l with
  | nil => intro _; rfl
  | cons q t ih =>
    by_cases hq : (s.expand_arch q).map strToLower = some "noarch"
    · have hf : ((s.expand_arch q).map strToLower != some "noarch") = false := by
        simp [hq]
      simp only [noArchAux, hf, Bool.false_eq_true, if_false]
      exact ih
    · have ht : ((s.expand_arch q).map strToLower != some "noarch") = true := by
        simp [hq]
      simp [noArchAux, ht]

/-- C5: with zero javadoc subpackages the verdict is NOT-APPLICABLE; with
more than one it is PENDING with explanatory text, not FAIL; with exactly
one it is FAIL when a `JAVAPACKAGES_R` token is an entry of that
subpackage's requires and PASS otherwise. -/
theorem javadocJPackageRequires_cases (s : SpecView) :
    (s.packages.filter (fun q => strEndsWith q "-javadoc") = [] →
       runJavadocJPackageRequires s = (Verdict.NA, none)) ∧
    ((s.packages.filter (fun q => strEndsWith q "-javadoc")).length > 1 →
       runJavadocJPackageRequires s =
         (Verdict.PENDING, some "More than one javadoc package")) ∧
    (∀ p, s.packages.filter (fun q => strEndsWith q "-javadoc") = [p] →
       ((∃ x ∈ JAVAPACKAGES_R, x ∈ s.get_requires (some p)) →
          (runJavadocJPackageRequires s).1 = Verdict.FAIL) ∧
       (¬(∃ x ∈ JAVAPACKAGES_R, x ∈ s.get_requires (some p)) →
          runJavadocJPackageRequires s = (Verdict.PASS, none))) := by
  refine ⟨?_, ?_, ?_⟩
  · intro h
    simp [runJavadocJPackageRequires, h]
  · intro h
    rcases hfl : s.packages.filter (fun q => strEndsWith q "-javadoc") with
      _ | ⟨a, _ | ⟨b, t⟩⟩
    · rw [hfl] at h; simp at h
    · rw [hfl] at h; simp at h
    · simp [runJavadocJPackageRequires, hfl]
  · intro p hp
    exact ⟨fun hx => ((javadocJPackageRequires_single s p hp).1).mpr hx,
      (javadocJPackageRequires_single s p hp).2⟩

/-- C5 witness: the theorem applied to `specB`, which declares no javadoc
subpackage. -/
theorem javadocJPackageRequires_cases_witness :
    runJavadocJPackageRequires specB = (Verdict.NA, none) :=
  (javadocJPackageRequires_cases specB).1 (by decide)

/-- C10: with exactly one javadoc subpackage, the javadoc requires check
fails precisely when some entry of that subpackage's requires list equals
a `JAVAPACKAGES_R` token; on `specA`, whose javadoc requires entry merely
contains the token with a version constraint appended, it passes — while
`CheckJPackageRequires`, which matches tokens as substrings, fails on the
same spec.  The last two conjuncts exhibit the substring/equality split on
the entry itself. -/
theorem javadocRequires_exact_vs_substring :
    (∀ (s : SpecView) (p : String),
        s.packages.filter (fun q => strEndsWith q "-javadoc") = [p] →
          ((runJavadocJPackageRequires s).1 = Verdict.FAIL ↔
            ∃ x ∈ JAVAPACKAGES_R, x ∈ s.get_requires (some p))) ∧
    runJavadocJPackageRequires specA = (Verdict.PASS, none) ∧
    (runJPackageRequires specA).1 = Verdict.FAIL ∧
    strContains "javapackages-tools >= 3.4" "javapackages-tools" = true ∧
    ¬∃ x ∈ JAVAPACKAGES_R, x ∈ specA.get_requires (some "foo-javadoc") := by
  refine ⟨?_, by decide, by decide, by decide, by decide⟩
  intro s p hp
  exact (javadocJPackageRequires_single s p hp).1

/-- C10 witness: the general conjunct applied to `specA` and its javadoc
subpackage. -/
theorem javadocRequires_exact_vs_substring_witness :
    (runJavadocJPackageRequires specA).1 = Verdict.FAIL ↔
      ∃ x ∈ JAVAPACKAGES_R, x ∈ specA.get_requires (some "foo-javadoc") :=
  javadocRequires_exact_vs_substring.1 specA "foo-javadoc" (by decide)

/-- C6: NOT-APPLICABLE when no built file matches `*.pom`; otherwise PASS
for an XMvn build; otherwise FAIL when no spec line matches the
`%add_maven_depmap` pattern and PENDING when one does. -/
theorem addMavenDepmap_cases (s : SpecView) (r : RpmsView) :
    (¬(∃ pr ∈ r.rpmFiles, ∃ f ∈ pr.2, globMatchStr "*.pom" f = true) →
       runAddMavenDepmap s r = (Verdict.NA, none)) ∧
    ((∃ pr ∈ r.rpmFiles, ∃ f ∈ pr.2, globMatchStr "*.pom" f = true) →
       (isXmvnPkg s = true → runAddMavenDepmap s r = (Verdict.PASS, none)) ∧
       (isXmvnPkg s = false → ¬(∃ l ∈ s.lines, addMavenDepmapLine l = true) →
          (runAddMavenDepmap s r).1 = Verdict.FAIL) ∧
       (isXmvnPkg s = false → (∃ l ∈ s.lines, addMavenDepmapLine l = true) →
          (runAddMavenDepmap s r).1 = Verdict.PENDING)) := by
  constructor
  · intro h
    have hb : r.findAny "*.pom" = false := by
      cases he : r.findAny "*.pom"
      · rfl
      · exact absurd ((findAny_iff r _).mp he) h
    simp [runAddMavenDepmap, hb]
  · intro h
    have hb : r.findAny "*.pom" = true := (findAny_iff r _).mpr h
    refine ⟨?_, ?_, ?_⟩
    · intro hx
      simp [runAddMavenDepmap, hb, hx]
    · intro hx hm
      have hmb : s.lines.any addMavenDepmapLine = false := by
        cases he : s.lines.any addMavenDepmapLine
        · rfl
        · exact absurd (List.any_eq_true.mp he) hm
      simp [runAddMavenDepmap, hb, hx, hmb]
    · intro hx hm
      have hmb : s.lines.any addMavenDepmapLine = true := List.any_eq_true.mpr hm
      simp [runAddMavenDepmap, hb, hx, hmb]

/-- C6 witness: `specA` built with XMvn and a POM file among the built
packages. -/
theorem addMavenDepmap_cases_witness :
    runAddMavenDepmap specA rpmsA = (Verdict.PASS, none) :=
  ((addMavenDepmap_cases specA rpmsA).2
      ⟨("foo", ["/usr/share/maven-poms/JPP-foo.pom"]), by decide,
        "/usr/share/maven-poms/JPP-foo.pom", by decide, by decide⟩).1 (by decide)

/-- C7: with no declared subpackage ending in `-javadoc` the check fails
with the message noting that javadocs are optional for Fedora >= 21; with
a located javadoc subpackage it passes when its file list holds a file
matching `*.html` and fails with the per-package message otherwise. -/
theorem javadoc_cases (s : SpecView) (r : RpmsView) :
    ((∀ p ∈ s.packages, strEndsWith p "-javadoc" = false) →
       runJavadoc s r =
         (Verdict.FAIL,
           some "No javadoc subpackage present. Note: Javadocs are optional for Fedora versions >= 21")) ∧
    (∀ p, getJavadocSub s = some p →
       ((∃ f ∈ r.filesOf p, globMatchStr "*.html" f = true) →
          runJavadoc s r = (Verdict.PASS, none)) ∧
       (¬(∃ f ∈ r.filesOf p, globMatchStr "*.html" f = true) →
          runJavadoc s r = (Verdict.FAIL, some ("No javadoc html files found in " ++ p)))) := by
  constructor
  · intro h
    have hn : getJavadocSub s = none := by
      unfold getJavadocSub
      rw [List.find?_eq_none]
      intro x hx
      simp [h x hx]
    simp [runJavadoc, hn]
  · intro p hp
    constructor
    · intro hf
      have hb : r.findIn "*.html" p = true := (findIn_iff r _ p).mpr hf
      simp [runJavadoc, hp, hb]
    · intro hf
      have hb : r.findIn "*.html" p = false := by
        cases he : r.findIn "*.html" p
        · rfl
        · exact absurd ((findIn_iff r _ p).mp he) hf
      simp [runJavadoc, hp, hb]

/-- C7 witness: `specB` declares no javadoc subpackage. -/
theorem javadoc_cases_witness :
    runJavadoc specB rpmsA =
      (Verdict.FAIL,
        some "No javadoc subpackage present. Note: Javadocs are optional for Fedora versions >= 21") :=
  (javadoc_cases specB rpmsA).1 (by decide)

/-- C8: with a located javadoc subpackage the verdict is PASS exactly when
some of its files matches the unversioned canonical path pattern and none
matches the versioned one; any file matching the versioned pattern forces
FAIL. -/
theorem javadocdirName_characterization (s : SpecView) (r : RpmsView) :
    ∀ p, getJavadocSub s = some p →
      (((runJavadocdirName s r).1 = Verdict.PASS ↔
          (∃ f ∈ r.filesOf p, globMatchStr (namePattern s) f = true) ∧
          (∀ f ∈ r.filesOf p, globMatchStr (nameVerPattern s) f = false)) ∧
       ((∃ f ∈ r.filesOf p, globMatchStr (nameVerPattern s) f = true) →
          (runJavadocdirName s r).1 = Verdict.FAIL)) := by
  intro p hp
  constructor
  · by_cases hv : r.find_all (nameVerPattern s) p = []
    · by_cases hn : r.find_all (namePattern s) p = []
      · have heval1 : (runJavadocdirName s r).1 = Verdict.FAIL := by
          simp [runJavadocdirName, hp, hv, hn]
        rw [heval1]
        constructor
        · intro hc
          exact absurd hc (by decide)
        · rintro ⟨⟨f, hf, hmf⟩, -⟩
          have := (find_all_eq_nil_iff r _ p).mp hn f hf
          simp [this] at hmf
      · have heval1 : (runJavadocdirName s r).1 = Verdict.PASS := by
          simp [runJavadocdirName, hp, hv, hn]
        rw [heval1]
        constructor
        · intro _
          exact ⟨(find_all_ne_nil_iff r _ p).mp hn, (find_all_eq_nil_iff r _ p).mp hv⟩
        · intro _
          rfl
    · have heval1 : (runJavadocdirName s r).1 = Verdict.FAIL := by
        simp [runJavadocdirName, hp, hv]
      rw [heval1]
      constructor
      · intro hc
        exact absurd hc (by decide)
      · rintro ⟨-, hall⟩
        obtain ⟨f, hf, hmf⟩ := (find_all_ne_nil_iff r _ p).mp hv
        simp [hall f hf] at hmf
  · rintro ⟨f, hf, hmf⟩
    have hv : r.find_all (nameVerPattern s) p ≠ [] :=
      (find_all_ne_nil_iff r _ p).mpr ⟨f, hf, hmf⟩
    simp [runJavadocdirName, hp, hv]

/-- C8 witness: `specA` passes with its javadoc HTML under the unversioned
canonical directory, and fails once the same file sits under the versioned
directory instead. -/
theorem javadocdirName_characterization_witness :
    (runJavadocdirName specA rpmsA).1 = Verdict.PASS ∧
    (runJavadocdirName specA rpmsVersioned).1 = Verdict.FAIL :=
  ⟨((javadocdirName_characterization specA rpmsA "foo-javadoc" (by decide)).1).mpr
      ⟨⟨"/usr/share/javadoc/foo/index.html", by decide, by decide⟩, by decide⟩,
    (javadocdirName_characterization specA rpmsVersioned "foo-javadoc" (by decide)).2
      ⟨"/usr/share/javadoc/foo-1.0/index.html", by decide, by decide⟩⟩

/-- C9: the noarch check passes exactly when every subpackage's `arch`
tag expands and lowercases to `noarch`; it stops with PENDING and a
manual-verification message at the first subpackage whose tag does not —
a tag that fails to expand counting as such a mismatch. -/
theorem noArch_characterization (s : SpecView) :
    (runNoArch s = (Verdict.PASS, none) ↔
       ∀ p ∈ s.packages, (s.expand_arch p).map strToLower = some "noarch") ∧
    (∀ p, s.packages.find?
        (fun q => (s.expand_arch q).map strToLower != some "noarch") = some p →
       runNoArch s =
         (Verdict.PENDING, some (p ++ " subpackage is not noarch. Please verify manually"))) ∧
    (∀ p ∈ s.packages, s.expand_arch p = none → (runNoArch s).1 ≠ Verdict.PASS) := by
  refine ⟨noArchAux_pass_iff s s.packages,
    fun p hp => noArchAux_find s s.packages p hp, ?_⟩
  intro p hp hnone hpass
  have hfull : runNoArch s = (Verdict.PASS, none) :=
    noArchAux_fst_pass s s.packages hpass
  have hall := (noArchAux_pass_iff s s.packages).mp hfull
  have := hall p hp
  rw [hnone] at this
  simp at this

/-- C9 witness: `specB`, whose only subpackage's `arch` tag fails to
expand, yields PENDING naming that subpackage. -/
theorem noArch_characterization_witness :
    runNoArch specB =
      (Verdict.PENDING, some ("bar" ++ " subpackage is not noarch. Please verify manually")) :=
  (noArch_characterization specB).2.1 "bar" (by decide)

/-- C4 witness: the general conjunct applied to the comment-only spec. -/
theorem mvnRpmbuild_comment_line_fails_witness :
    (runMvnRpmbuild mvnCommentSpec).1 = Verdict.FAIL :=
  (mvnRpmbuild_comment_line_fails.2 mvnCommentSpec).mpr
    ⟨"# mvn-rpmbuild", by decide, by decide⟩
